import Mathlib

/-!
# Verification of the canvas-reports PDF reporting service

Shallow embedding of `src/public/services/reporting.tsx` (class `ReportingService`)
of the opensearch-dashboards canvas-reports-data-analyzer plugin, together with
proofs about the embedded operations.

Numbers that the source manipulates as JS numbers are modelled as `ℚ`/`ℤ`/`ℕ`;
DOM elements are modelled by identifiers (`ℕ`) carrying their inline-style
state; the JS `Map` used for style snapshots is modelled as an association list
with `Map.set` insert-or-overwrite semantics; thrown errors become `Except`.
-/

namespace CanvasReports

/-! ## Phase configuration and progress (reporting.tsx lines 15-21, 847-857) -/

/-- The five report-generation phases, in the declaration (= `Object.keys`) order
of `PHASE_CONFIG`. -/
inductive PhaseKey where
  | initialization
  | data_gathering
  | info_retrieval
  | pdf_generation
  | success
deriving DecidableEq, BEq, Repr

/-- Phase weight configuration for progress calculation (`PHASE_CONFIG`). -/
def PHASE_CONFIG : PhaseKey → ℚ
  | .initialization => 5/100
  | .data_gathering => 65/100
  | .info_retrieval => 20/100
  | .pdf_generation => 5/100
  | .success => 5/100

/-- `Object.keys(PHASE_CONFIG)`: the phases in insertion order. -/
def phaseKeys : List PhaseKey :=
  [.initialization, .data_gathering, .info_retrieval, .pdf_generation, .success]

/-- `calculateProgress(phase, phaseProgress)`: weighted overall progress
percentage.  `Math.round` is `round` (half-up), `Math.min/Math.max` clamp the
phase progress to `[0,1]`, `slice(0, currentIndex).reduce(+)` is the sum of the
weights of the phases strictly before `phase`. -/
def calculateProgress (phase : PhaseKey) (phaseProgress : ℚ) : ℤ :=
  let currentIndex := phaseKeys.indexOf phase
  let accumulated := ((phaseKeys.take currentIndex).map PHASE_CONFIG).sum
  let currentContribution := PHASE_CONFIG phase * min 1 (max 0 phaseProgress)
  round ((accumulated + currentContribution) * 100)

/-- Spec-side definition: the cumulative weight of the phases strictly before a
phase in enum order, written out from the spec's enumeration. -/
def accumulatedWeightBefore : PhaseKey → ℚ
  | .initialization => 0
  | .data_gathering => 5/100
  | .info_retrieval => 70/100
  | .pdf_generation => 90/100
  | .success => 95/100

/-- Spec-side definition: the cumulative weight through a phase (inclusive). -/
def cumulativeWeightThrough : PhaseKey → ℚ
  | .initialization => 5/100
  | .data_gathering => 70/100
  | .info_retrieval => 90/100
  | .pdf_generation => 95/100
  | .success => 1

/-! ## Pagination (reporting.tsx lines 1283-1290) -/

/-- `calculateTotalPages(validCount)`: `3 + contentPages`, with
`contentPages = 1 + Math.ceil((validCount - 1) / 2)` when `validCount > 0`. -/
def calculateTotalPages (validCount : ℕ) : ℤ :=
  let visualizationsPerPage : ℚ := 2
  let contentPages : ℤ :=
    if validCount > 0 then 1 + ⌈((validCount : ℚ) - 1) / visualizationsPerPage⌉ else 0
  3 + contentPages

/-! ## Footer images (reporting.tsx lines 1792-1851) -/

/-- One generated footer, recorded by the page/total numbers it displays
(`displayPage`, `displayTotalPages` in `createFooterImages`). -/
structure FooterImage where
  displayPage : ℤ
  displayTotalPages : ℤ
deriving DecidableEq, Repr

/-- `createFooterImages(allowTableOfContents, …, totalPages, …)`: the loop
`for (page = 0; page <= totalPages; page++)` pushes one footer per iteration,
displaying `page`/`totalPages` when the table of contents is enabled and
`page - 1`/`totalPages - 1` when it is disabled. -/
def createFooterImages (allowTableOfContents : Bool) (totalPages : ℕ) : List FooterImage :=
  (List.range (totalPages + 1)).map fun (page : ℕ) =>
    { displayPage := if allowTableOfContents then (page : ℤ) else (page : ℤ) - 1
      displayTotalPages := if allowTableOfContents then (totalPages : ℤ) else (totalPages : ℤ) - 1 }

/-! ## Visualization entries and page breaks (reporting.tsx lines 1447-1479) -/

/-- A `VisualizationData` entry; `type` holds the TS string-literal tag. -/
structure VisualizationData where
  id : String
  title : String
  type : String
  data : String
deriving DecidableEq, Repr

/-- The `PageBreak` marker entry pushed by `addPageBreaks`. -/
def pageBreakEntry (index : ℕ) : VisualizationData :=
  { id := s!"page-break-{index}", type := "PageBreak", title := "", data := "" }

/-- `addPageBreaks(visualizations, index, totalPanels)`: appends a `PageBreak`
marker iff `(index + 1) % 2 === 0 && index !== totalPanels - 1`. -/
def addPageBreaks (visualizations : List VisualizationData) (index totalPanels : ℕ) :
    List VisualizationData :=
  if (index + 1) % 2 = 0 ∧ index ≠ totalPanels - 1 then
    visualizations ++ [pageBreakEntry index]
  else visualizations

/-! ## Capture profiles and the near-white pixel snap (reporting.tsx lines 1986-2156) -/

/-- One RGBA pixel of the captured canvas (channel values 0..255). -/
structure Pixel where
  r : ℕ
  g : ℕ
  b : ℕ
  a : ℕ
deriving DecidableEq, Repr

/-- The four capture branches of `capturePanelScreenshot`, selected by
structural detection (`hasArcElements` / `isTimeSeriesChart` / `hasMetrics`). -/
inductive CaptureProfile where
  | arc
  | timeSeries
  | metric
  | defaultProfile
deriving DecidableEq, Repr

/-- Profile selection order of `capturePanelScreenshot`. -/
def selectCaptureProfile (hasArcElements isTimeSeriesChart hasMetrics : Bool) : CaptureProfile :=
  if hasArcElements then .arc
  else if isTimeSeriesChart then .timeSeries
  else if hasMetrics then .metric
  else .defaultProfile

/-- The per-pixel near-white snap of the default branch:
`if (data[i] > 240 && data[i+1] > 240 && data[i+2] > 240) data[i] = data[i+1] = data[i+2] = 255`. -/
def snapNearWhite (p : Pixel) : Pixel :=
  if p.r > 240 ∧ p.g > 240 ∧ p.b > 240 then { p with r := 255, g := 255, b := 255 } else p

/-- Pixel post-processing per profile: only the default branch runs the
near-white snap over the canvas image data. -/
def applyCapturePostProcessing (profile : CaptureProfile) (pixels : List Pixel) : List Pixel :=
  match profile with
  | .defaultProfile => pixels.map snapNearWhite
  | _ => pixels

/-! ## Phase duration history (reporting.tsx lines 716-730, 822-837) -/

/-- `updatePhaseHistory` body on one phase's history:
`if (history.length >= 10) history.shift(); history.push(duration)`. -/
def updatePhaseHistory (history : List ℕ) (duration : ℕ) : List ℕ :=
  (if history.length ≥ 10 then history.tail else history) ++ [duration]

/-- The `phaseHistory` map (`Map<PhaseKey, number[]>`, `getPhaseHistory`
defaulting to `[]`), updated at one phase. -/
def updatePhaseHistoryMap (m : PhaseKey → List ℕ) (phase : PhaseKey) (duration : ℕ) :
    PhaseKey → List ℕ :=
  fun q => if q = phase then updatePhaseHistory (m phase) duration else m q

/-- `executePhase`: awaits the operation, records the elapsed duration in both
the success path and the catch path, and rethrows the failure. -/
def executePhase (m : PhaseKey → List ℕ) (phase : PhaseKey) (operationFails : Bool)
    (elapsed : ℕ) : Except Unit Unit × (PhaseKey → List ℕ) :=
  Prod.mk (if operationFails then Except.error () else Except.ok ())
    (updatePhaseHistoryMap m phase elapsed)

/-- A sequence of `executePhase` calls starting from the empty history map. -/
def runPhases (calls : List (PhaseKey × Bool × ℕ)) : PhaseKey → List ℕ :=
  calls.foldl (fun m c => (executePhase m c.1 c.2.1 c.2.2).2) (fun _ => [])

/-! ## Tenant name capitalization (reporting.tsx lines 691-693, 781-789, 537-550) -/

/-- `capitalizeFirstLetter(str)`:
`str.charAt(0).toUpperCase() + str.slice(1).toLowerCase()`, modelled on the
character list of the string. -/
def capitalizeFirstLetter (str : String) : String :=
  String.mk ((str.data.take 1).map Char.toUpper ++ (str.data.drop 1).map Char.toLower)

/-- `DEFAULT_TENANT_NAME` constant. -/
def DEFAULT_TENANT_NAME : String := "Private"

/-- JS `String.prototype.trim()`: strip whitespace from both ends, modelled on
the character list. -/
def jsTrim (s : String) : String :=
  String.mk (((s.data.dropWhile Char.isWhitespace).reverse.dropWhile Char.isWhitespace).reverse)

/-- `getElementText('tenantName', …, true)`: trimmed text content of the tenant
element, falling back to `DEFAULT_TENANT_NAME` (JS `||` with `''` falsy). -/
def getElementTextTenant (tenantNameText : Option String) : String :=
  match tenantNameText with
  | some s => if jsTrim s = "" then DEFAULT_TENANT_NAME else jsTrim s
  | none => DEFAULT_TENANT_NAME

/-- `retrieveTenantInfo`: stores `capitalizeFirstLetter(tenantName)` into
`tenantName` and `completeName`, the string `addCoverPage` later draws. -/
def retrieveTenantInfo (tenantNameText : Option String) : String :=
  capitalizeFirstLetter (getElementTextTenant tenantNameText)

/-! ## Panels, discovery and validation (reporting.tsx lines 1265-1276, 1503-1554) -/

/-- A dashboard panel element, modelled by the structural features the service
probes for, its validity attributes, its title sources, and the identifiers of
its `.react-grid-item` and `.embPanel` ancestors (`none` = `closest` misses). -/
structure Panel where
  root : Option ℕ := none
  embPanel : Option ℕ := none
  hasVisChart : Bool := false
  hasArcs : Bool := false
  hasTvbVisTimeSeries : Bool := false
  hasVisAxisY : Bool := false
  hasTvbVisTopN : Bool := false
  hasOsdRedirectCrossAppLinks : Bool := false
  hasTvbSplitVis : Bool := false
  hasVisChartVgaVis : Bool := false
  hasTableViewTestSubj : Bool := false
  hasMtrVis : Bool := false
  hasTableVis : Bool := false
  hasTgcChart : Bool := false
  hasTsvbMarkdown : Bool := false
  excludedPanelType : Bool := false
  emptyPanel : Bool := false
  noDataMessage : Bool := false
  dataTitleAttr : Option String := none
  headerTitleText : Option String := none
deriving DecidableEq, Repr

/-- `isValidPanel`: not excluded, not empty, no "no data" message. -/
def isValidPanel (p : Panel) : Bool :=
  !p.excludedPanelType && !p.emptyPanel && !p.noDataMessage

/-- JS `a || b` for an optional string with `''` falsy. -/
def jsOrString (a : Option String) (b : String) : String :=
  match a with
  | some s => if s = "" then b else s
  | none => b

/-- The title expression of `validatePanels`:
`[data-title] attribute || header text trimmed || '[No Title]'`. -/
def panelTitle (p : Panel) : String :=
  jsOrString p.dataTitleAttr (jsOrString (p.headerTitleText.map jsTrim) "[No Title]")

/-- `validatePanels(panels)`: map each panel to `{panel, title}` when the title
is truthy (else `null`), then filter out the `null`s. -/
def validatePanels (panels : List Panel) : List (Panel × String) :=
  (panels.map fun panel =>
    let title := panelTitle panel
    if title ≠ "" then some (panel, title) else none).filterMap id

/-! ## Layout normalization (reporting.tsx lines 878-1123) -/

/-- The inline-style subset that `preparePanelDimensions` snapshots and
mutates: `{top, left, width, height, position, visibility}`. -/
structure Styles where
  top : String
  left : String
  width : String
  height : String
  position : String
  visibility : String
deriving DecidableEq, Repr

/-- A partial style object (`Partial<CSSStyleDeclaration>` restricted to the
six tracked properties); `Object.assign` only overwrites present fields. -/
structure StylePatch where
  top : Option String := none
  left : Option String := none
  width : Option String := none
  height : Option String := none
  position : Option String := none
  visibility : Option String := none
deriving DecidableEq, Repr

/-- `Object.assign(element.style, patch)` on the tracked subset. -/
def applyPatch (s : Styles) (p : StylePatch) : Styles :=
  { top := p.top.getD s.top
    left := p.left.getD s.left
    width := p.width.getD s.width
    height := p.height.getD s.height
    position := p.position.getD s.position
    visibility := p.visibility.getD s.visibility }

/-- The document's inline styles, per element identifier. -/
abbrev Dom : Type := ℕ → Styles

/-- Write one element's style object. -/
def updateDom (d : Dom) (i : ℕ) (s : Styles) : Dom :=
  fun j => if j = i then s else d j

/-- The `originalStyles: Map<HTMLElement, OriginalStyles>` as an association
list in insertion order. -/
abbrev OriginalMap : Type := List (ℕ × StylePatch)

/-- JS `Map.set`: overwrite in place when the key exists, append otherwise. -/
def mapSet (m : OriginalMap) (k : ℕ) (v : StylePatch) : OriginalMap :=
  if m.any (fun kv => kv.1 = k) then
    m.map (fun kv => if kv.1 = k then (k, v) else kv)
  else m ++ [(k, v)]

/-- The restore closure returned by `preparePanelDimensions`:
`originalStyles.forEach((styles, element) => Object.assign(element.style, styles))`. -/
def restoreStyles (m : OriginalMap) (d : Dom) : Dom :=
  m.foldl (fun dcur kv => updateDom dcur kv.1 (applyPatch (dcur kv.1) kv.2)) d

/-- The snapshot `storeAndApplyStyles` takes of the grid-cell root: all six
tracked inline-style properties. -/
def rootSnapshotOf (s : Styles) : StylePatch :=
  { top := some s.top, left := some s.left, width := some s.width
    height := some s.height, position := some s.position, visibility := some s.visibility }

/-- The snapshot `storeAndApplyStyles` takes of the embPanel ancestor: only
`{width, height}`. -/
def embSnapshotOf (s : Styles) : StylePatch :=
  { width := some s.width, height := some s.height }

/-- `storeAndApplyStyles(panel, rootStyles, embPanelStyles)`: when both
ancestors exist, snapshot the root's six tracked properties and the embPanel's
`{width, height}` into the map, then assign both patches. -/
def storeAndApplyStyles (st : Dom × OriginalMap) (panel : Panel)
    (rootStyles embPanelStyles : StylePatch) : Dom × OriginalMap :=
  match panel.root, panel.embPanel with
  | some root, some embPanel =>
    let d := st.1
    let m := mapSet (mapSet st.2 root (rootSnapshotOf (d root))) embPanel
      (embSnapshotOf (d embPanel))
    let d1 := updateDom d root (applyPatch (d root) rootStyles)
    let d2 := updateDom d1 embPanel (applyPatch (d1 embPanel) embPanelStyles)
    (d2, m)
  | _, _ => st

/-- Wide chart geometry (tsvb time series, bar, cloud, map, tsvb markdown). -/
def wideChartRootStyles : StylePatch :=
  { top := some "540px", left := some "964px", width := some "948px", height := some "384px"
    position := some "absolute", visibility := some "hidden" }

/-- Pie / top-N geometry. -/
def pieRootStyles : StylePatch :=
  { top := some "540px", left := some "964px", width := some "640px", height := some "440px"
    position := some "absolute", visibility := some "hidden" }

/-- Trend-metric geometry. -/
def trendMetricRootStyles : StylePatch :=
  { top := some "260px", left := some "637px", width := some "318px", height := some "340px"
    position := some "absolute", visibility := some "hidden" }

/-- Tsvb split-metric geometry. -/
def tsvbMetricRootStyles : StylePatch :=
  { top := some "320px", left := some "637px", width := some "637px", height := some "200px"
    position := some "absolute", visibility := some "hidden" }

/-- Metric geometry. -/
def metricRootStyles : StylePatch :=
  { top := some "700px", left := some "637px", width := some "637px", height := some "220px"
    position := some "absolute", visibility := some "hidden" }

/-- Table / split-vis / table-view geometry. -/
def tableRootStyles : StylePatch :=
  { top := some "1600px", left := some "955px", width := some "955px", height := some "540px"
    position := some "absolute", visibility := some "hidden" }

/-- EmbPanel geometry at every call site: `{width: '100%', height: '100%'}`. -/
def fullSizeEmbStyles : StylePatch :=
  { width := some "100%", height := some "100%" }

/-- The thirteen `forEach` batches of `preparePanelDimensions`, in source
order, as (panel, root geometry) applications.  The list filters reproduce the
querySelector probes (`tsvbMetrics` and `tvbSplitVis` both probe
`.tvbSplitVis`). -/
def styleApplications (panels : List Panel) : List (Panel × StylePatch) :=
  let chartPanels := panels.filter (·.hasVisChart)
  (chartPanels.filter (·.hasTvbVisTimeSeries)).map (fun p => (p, wideChartRootStyles)) ++
  (chartPanels.filter (·.hasVisAxisY)).map (fun p => (p, wideChartRootStyles)) ++
  (chartPanels.filter (·.hasArcs)).map (fun p => (p, pieRootStyles)) ++
  (chartPanels.filter (·.hasTvbVisTopN)).map (fun p => (p, pieRootStyles)) ++
  (chartPanels.filter (·.hasOsdRedirectCrossAppLinks)).map (fun p => (p, trendMetricRootStyles)) ++
  (chartPanels.filter (·.hasTvbSplitVis)).map (fun p => (p, tsvbMetricRootStyles)) ++
  (panels.filter (·.hasMtrVis)).map (fun p => (p, metricRootStyles)) ++
  (panels.filter (·.hasTableVis)).map (fun p => (p, tableRootStyles)) ++
  (chartPanels.filter (·.hasTvbSplitVis)).map (fun p => (p, tableRootStyles)) ++
  (chartPanels.filter (·.hasTableViewTestSubj)).map (fun p => (p, tableRootStyles)) ++
  (panels.filter (·.hasTgcChart)).map (fun p => (p, wideChartRootStyles)) ++
  (chartPanels.filter (·.hasVisChartVgaVis)).map (fun p => (p, wideChartRootStyles)) ++
  (panels.filter (·.hasTsvbMarkdown)).map (fun p => (p, wideChartRootStyles))

/-- `preparePanelDimensions(panels)`: run every batch application in order on
an empty snapshot map, returning the mutated document and the snapshot map
(the returned restore closure is `restoreStyles` of that map). -/
def preparePanelDimensions (panels : List Panel) (d : Dom) : Dom × OriginalMap :=
  (styleApplications panels).foldl
    (fun st pa => storeAndApplyStyles st pa.1 pa.2 fullSizeEmbStyles) (d, [])

/-- The element identifiers a panel's style application touches. -/
def panelTouchedIds (p : Panel) : List ℕ :=
  match p.root, p.embPanel with
  | some root, some embPanel => [root, embPanel]
  | _, _ => []

/-- All element identifiers touched over a `preparePanelDimensions` run, with
multiplicity (a panel matching several probes contributes several times). -/
def touchedIds (panels : List Panel) : List ℕ :=
  (styleApplications panels).flatMap (fun pa => panelTouchedIds pa.1)

/-! ## getVisualizationData control flow (reporting.tsx lines 1210-1256) -/

/-- Errors getVisualizationData can signal. -/
inductive ReportError where
  | noValidPanels
  | captureFailure
deriving DecidableEq, Repr

/-- `getVisualizationData` control-flow skeleton: filter valid panels, throw
`NoValidPanels` when none remain (before any layout mutation), otherwise
prepare panel dimensions and — in a `finally` — invoke the restore closure
exactly once, whether the capture body succeeded or failed.  Returns the
result, the final document and the snapshot map that was populated. -/
def getVisualizationData (allPanels : List Panel) (captureFails : Bool) (d : Dom) :
    Except ReportError Unit × Dom × OriginalMap :=
  let panels := allPanels.filter isValidPanel
  if panels.length = 0 then
    (Except.error ReportError.noValidPanels, d, [])
  else
    let prepared := preparePanelDimensions panels d
    let bodyResult : Except ReportError Unit :=
      if captureFails then Except.error ReportError.captureFailure else Except.ok ()
    (bodyResult, restoreStyles prepared.2 prepared.1, prepared.2)

/-! ## Concrete fixtures for evaluation -/

/-- A concrete pre-run inline style state. -/
def exampleStyles : Styles :=
  { top := "0px", left := "0px", width := "600px", height := "300px"
    position := "", visibility := "" }

/-- A document whose every element starts at `exampleStyles`. -/
def exampleDom : Dom := fun _ => exampleStyles

/-- A panel matching two style probes: `.visChart` with `.tvbSplitVis` puts it
in both the `tsvbMetrics` and the `tvbSplitVis` batch. -/
def multiProbePanel : Panel :=
  { root := some 0, embPanel := some 1, hasVisChart := true, hasTvbSplitVis := true }

/-- A panel matching exactly one style probe (`.tvbVisTimeSeries`). -/
def singleProbePanel : Panel :=
  { root := some 0, embPanel := some 1, hasVisChart := true, hasTvbVisTimeSeries := true }

/-- A panel of an excluded kind: it fails validation. -/
def excludedPanel : Panel := { excludedPanelType := true }

/-! ## Claim C1: weighted phase progress -/

/-- Claim C1: for every phase `p` in enum order and every rational
`phaseProgress`, `calculateProgress` returns
`round((accumulated + weight[p] * clamp(phaseProgress, 0, 1)) * 100)` where
`accumulated` is the cumulative weight strictly before `p`; the weights sum to
exactly 1; `calculateProgress(p, 1)` is `round(cumulative weight through p * 100)`;
and out-of-range inputs behave as their clamped value. -/
theorem C1_calculateProgress_weighted :
    ((phaseKeys.map PHASE_CONFIG).sum = 1) ∧
    (∀ p x, calculateProgress p x =
      round ((accumulatedWeightBefore p + PHASE_CONFIG p * (min 1 (max 0 x))) * 100)) ∧
    (∀ p, calculateProgress p 1 = round (cumulativeWeightThrough p * 100)) ∧
    (∀ p x, x ≤ 0 → calculateProgress p x = calculateProgress p 0) ∧
    (∀ p x, 1 ≤ x → calculateProgress p x = calculateProgress p 1) := by
  refine ⟨?_, ?_, ?_, ?_, ?_⟩
  · norm_num [phaseKeys, PHASE_CONFIG]
  · intro p x
    cases p <;>
      simp only [calculateProgress,
        show phaseKeys.indexOf PhaseKey.initialization = 0 from rfl,
        show phaseKeys.indexOf PhaseKey.data_gathering = 1 from rfl,
        show phaseKeys.indexOf PhaseKey.info_retrieval = 2 from rfl,
        show phaseKeys.indexOf PhaseKey.pdf_generation = 3 from rfl,
        show phaseKeys.indexOf PhaseKey.success = 4 from rfl,
        show phaseKeys.take 0 = [] from rfl,
        show phaseKeys.take 1 = [PhaseKey.initialization] from rfl,
        show phaseKeys.take 2 = [PhaseKey.initialization, PhaseKey.data_gathering] from rfl,
        show phaseKeys.take 3 =
          [PhaseKey.initialization, PhaseKey.data_gathering, PhaseKey.info_retrieval] from rfl,
        show phaseKeys.take 4 = [PhaseKey.initialization, PhaseKey.data_gathering,
          PhaseKey.info_retrieval, PhaseKey.pdf_generation] from rfl] <;>
      simp [PHASE_CONFIG, accumulatedWeightBefore] <;> norm_num
  · intro p
    cases p <;>
      simp only [calculateProgress,
        show phaseKeys.indexOf PhaseKey.initialization = 0 from rfl,
        show phaseKeys.indexOf PhaseKey.data_gathering = 1 from rfl,
        show phaseKeys.indexOf PhaseKey.info_retrieval = 2 from rfl,
        show phaseKeys.indexOf PhaseKey.pdf_generation = 3 from rfl,
        show phaseKeys.indexOf PhaseKey.success = 4 from rfl,
        show phaseKeys.take 0 = [] from rfl,
        show phaseKeys.take 1 = [PhaseKey.initialization] from rfl,
        show phaseKeys.take 2 = [PhaseKey.initialization, PhaseKey.data_gathering] from rfl,
        show phaseKeys.take 3 =
          [PhaseKey.initialization, PhaseKey.data_gathering, PhaseKey.info_retrieval] from rfl,
        show phaseKeys.take 4 = [PhaseKey.initialization, PhaseKey.data_gathering,
          PhaseKey.info_retrieval, PhaseKey.pdf_generation] from rfl] <;>
      norm_num [PHASE_CONFIG, cumulativeWeightThrough, round_eq]
  · intro p x hx
    have h1 : max 0 x = 0 := max_eq_left hx
    simp [calculateProgress, h1]
  · intro p x hx
    have h1 : min 1 (max 0 x) = 1 := by
      have h0 : (0:ℚ) ≤ x := le_trans zero_le_one hx
      rw [max_eq_right h0]
      exact min_eq_left hx
    simp [calculateProgress, h1]

/-- Witness for C1: the clamping conjuncts applied at concrete out-of-range
inputs. -/
theorem C1_witness :
    calculateProgress PhaseKey.data_gathering (-(1:ℚ)/2) =
      calculateProgress PhaseKey.data_gathering 0 ∧
    calculateProgress PhaseKey.data_gathering (3/2) =
      calculateProgress PhaseKey.data_gathering 1 :=
  ⟨C1_calculateProgress_weighted.2.2.2.1 PhaseKey.data_gathering _ (by norm_num),
   C1_calculateProgress_weighted.2.2.2.2 PhaseKey.data_gathering _ (by norm_num)⟩

/-! ## Claim C2: total page count -/

/-- Claim C2 counterexample: the claim's concrete table says
`calculateTotalPages 2 = 4`, but the code's formula
`3 + 1 + ceil((2-1)/2)` gives 5. -/
theorem C2_counterexample : calculateTotalPages 2 = 5 ∧ ¬ (calculateTotalPages 2 = 4) := by
  have hc : ⌈(1:ℚ)/2⌉ = 1 := by
    rw [Int.ceil_eq_iff]
    norm_num
  constructor <;> norm_num [calculateTotalPages, hc]

/-- Claim C2 (amended): `calculateTotalPages N = 3 + contentPages` with
`contentPages = 0` for `N = 0` and `1 + ceil((N-1)/2)` otherwise; concretely
`N=0→3, 1→4, 2→5, 3→5, 4→6, 5→6`. -/
theorem C2_calculateTotalPages :
    (∀ n : ℕ, calculateTotalPages n = 3 + (if n = 0 then 0 else 1 + ⌈((n : ℚ) - 1) / 2⌉)) ∧
    calculateTotalPages 0 = 3 ∧ calculateTotalPages 1 = 4 ∧ calculateTotalPages 2 = 5 ∧
    calculateTotalPages 3 = 5 ∧ calculateTotalPages 4 = 6 ∧ calculateTotalPages 5 = 6 := by
  have h12 : ⌈(1:ℚ)/2⌉ = 1 := by
    rw [Int.ceil_eq_iff]
    norm_num
  have h32 : ⌈(3:ℚ)/2⌉ = 2 := by
    rw [Int.ceil_eq_iff]
    norm_num
  refine ⟨?_, ?_, ?_, ?_, ?_, ?_, ?_⟩
  · intro n
    rcases Nat.eq_zero_or_pos n with h | h
    · subst h; norm_num [calculateTotalPages]
    · simp [calculateTotalPages, h, Nat.pos_iff_ne_zero.mp h]
  all_goals norm_num [calculateTotalPages, h12, h32]

/-! ## Claim C3: footer image count -/

/-- Claim C3 counterexample: the loop `for (page = 0; page <= totalPages)`
produces `totalPages + 1` footer entries, not `totalPages + 2`; at
`totalPages = 3` it produces 4 entries, not 5. -/
theorem C3_counterexample :
    (createFooterImages true 3).length = 3 + 1 ∧
    ¬ ((createFooterImages true 3).length = 3 + 2) := by
  refine ⟨?_, ?_⟩
  · simp only [createFooterImages, List.length_map, List.length_range]
  · simp only [createFooterImages, List.length_map, List.length_range]
    decide

/-- Claim C3 (amended): `createFooterImages` generates one footer per page
index `0..totalPages` inclusive — `totalPages + 1` entries in total — and the
entry at index `page` displays `page / totalPages` when the table of contents
is enabled and `(page-1) / (totalPages-1)` when it is disabled. -/
theorem C3_createFooterImages :
    (∀ toc totalPages, (createFooterImages toc totalPages).length = totalPages + 1) ∧
    (∀ toc totalPages page, page ≤ totalPages →
      (createFooterImages toc totalPages)[page]? = some
        { displayPage := if toc then (page : ℤ) else (page : ℤ) - 1
          displayTotalPages := if toc then (totalPages : ℤ) else (totalPages : ℤ) - 1 }) := by
  constructor
  · intro toc totalPages
    simp only [createFooterImages, List.length_map, List.length_range]
  · intro toc totalPages page hpage
    simp only [createFooterImages, List.getElem?_map,
      List.getElem?_range (Nat.lt_succ_of_le hpage), Option.map_some']

/-- Witness for C3: with the table of contents disabled the footer entry at
page index 0 of a 3-page document displays `-1 of 2`. -/
theorem C3_witness :
    (createFooterImages false 3)[0]? =
      some { displayPage := -1, displayTotalPages := 2 } := by
  have h := C3_createFooterImages.2 false 3 0 (by decide)
  simpa using h

/-! ## Claim C5: page-break insertion -/

/-- Claim C5: `addPageBreaks` appends a `PageBreak` marker exactly when
`(index+1)` is even and `index ≠ totalPanels - 1`, and never after the final
panel regardless of parity. -/
theorem C5_addPageBreaks :
    (∀ vis index totalPanels, (index + 1) % 2 = 0 → index ≠ totalPanels - 1 →
      addPageBreaks vis index totalPanels = vis ++ [pageBreakEntry index]) ∧
    (∀ vis index totalPanels, ¬ ((index + 1) % 2 = 0 ∧ index ≠ totalPanels - 1) →
      addPageBreaks vis index totalPanels = vis) ∧
    (∀ vis totalPanels, addPageBreaks vis (totalPanels - 1) totalPanels = vis) := by
  refine ⟨?_, ?_, ?_⟩
  · intro vis index total h1 h2
    simp [addPageBreaks, h1, h2]
  · intro vis index total h
    simp only [addPageBreaks]
    rw [if_neg h]
  · intro vis total
    simp [addPageBreaks]

/-- Witness for C5: a break is appended after the second of three panels and
not after the final one. -/
theorem C5_witness :
    addPageBreaks [] 1 3 = [] ++ [pageBreakEntry 1] ∧
    addPageBreaks [] 2 3 = [] :=
  ⟨C5_addPageBreaks.1 [] 1 3 (by decide) (by decide),
   C5_addPageBreaks.2.2 [] 3⟩

/-! ## Claim C8: near-white pixel snap -/

/-- Claim C8: in the default capture profile the near-white snap maps every
pixel with all RGB channels strictly above 240 to pure white and leaves every
other pixel unchanged; `(245,248,250)` becomes white, `(200,200,200)` stays. -/
theorem C8_snapNearWhite :
    (∀ p : Pixel, p.r > 240 → p.g > 240 → p.b > 240 →
      snapNearWhite p = { r := 255, g := 255, b := 255, a := p.a }) ∧
    (∀ p : Pixel, ¬ (p.r > 240 ∧ p.g > 240 ∧ p.b > 240) → snapNearWhite p = p) ∧
    (∀ pixels, applyCapturePostProcessing CaptureProfile.defaultProfile pixels =
      pixels.map snapNearWhite) ∧
    (∀ hasArc hasTs hasMetrics, selectCaptureProfile hasArc hasTs hasMetrics =
      CaptureProfile.defaultProfile ↔ hasArc = false ∧ hasTs = false ∧ hasMetrics = false) ∧
    snapNearWhite { r := 245, g := 248, b := 250, a := 255 } =
      { r := 255, g := 255, b := 255, a := 255 } ∧
    snapNearWhite { r := 200, g := 200, b := 200, a := 255 } =
      { r := 200, g := 200, b := 200, a := 255 } := by
  refine ⟨?_, ?_, ?_, ?_, ?_, ?_⟩
  · intro p h1 h2 h3
    simp [snapNearWhite, h1, h2, h3]
  · intro p h
    simp only [snapNearWhite]
    rw [if_neg h]
  · intro pixels
    rfl
  · intro hasArc hasTs hasMetrics
    cases hasArc <;> cases hasTs <;> cases hasMetrics <;>
      simp [selectCaptureProfile]
  · decide
  · decide

/-- Witness for C8: the threshold conjunct applied at pixel `(241,241,241)`. -/
theorem C8_witness :
    snapNearWhite { r := 241, g := 241, b := 241, a := 0 } =
      { r := 255, g := 255, b := 255, a := 0 } :=
  C8_snapNearWhite.1 { r := 241, g := 241, b := 241, a := 0 }
    (by decide) (by decide) (by decide)

/-! ## Claim C6: bounded phase duration history -/

/-- Claim C6: over any sequence of `executePhase` calls each phase's history
never exceeds 10 entries; insertion at 10 evicts the oldest first; every call
appends exactly one elapsed duration whether the operation succeeds or fails,
and failure is rethrown after recording. -/
theorem C6_phaseHistory :
    (∀ calls p, (runPhases calls p).length ≤ 10) ∧
    (∀ h d, h.length = 10 → updatePhaseHistory h d = h.tail ++ [d]) ∧
    (∀ h d, h.length < 10 → updatePhaseHistory h d = h ++ [d]) ∧
    (∀ m p f e, (executePhase m p f e).2 p = updatePhaseHistory (m p) e) ∧
    (∀ m p f e q, q ≠ p → (executePhase m p f e).2 q = m q) ∧
    (∀ m p e, (executePhase m p true e).1 = Except.error ()) ∧
    (∀ m p e, (executePhase m p false e).1 = Except.ok ()) := by
  have hlen : ∀ (h : List ℕ) d, h.length ≤ 10 → (updatePhaseHistory h d).length ≤ 10 := by
    intro h d hh
    simp only [updatePhaseHistory, List.length_append, List.length_cons, List.length_nil]
    split
    · simp only [List.length_tail]
      omega
    · omega
  refine ⟨?_, ?_, ?_, ?_, ?_, ?_, ?_⟩
  · intro calls
    suffices hgen : ∀ (m : PhaseKey → List ℕ), (∀ p, (m p).length ≤ 10) →
        ∀ p, ((calls.foldl (fun m c => (executePhase m c.1 c.2.1 c.2.2).2) m) p).length ≤ 10 by
      intro p
      exact hgen (fun _ => []) (fun _ => by simp) p
    induction calls with
    | nil =>
      intro m hm p
      exact hm p
    | cons c cs ih =>
      intro m hm p
      rw [List.foldl_cons]
      refine ih _ (fun q => ?_) p
      simp only [executePhase, updatePhaseHistoryMap]
      by_cases hq : q = c.1
      · simpa [hq] using hlen _ _ (hm c.1)
      · simpa [hq] using hm q
  · intro h d hh
    simp [updatePhaseHistory, hh]
  · intro h d hh
    simp only [updatePhaseHistory]
    rw [if_neg (by omega)]
  · intro m p f e
    simp [executePhase, updatePhaseHistoryMap]
  · intro m p f e q hq
    simp [executePhase, updatePhaseHistoryMap, hq]
  · intro m p e
    rfl
  · intro m p e
    rfl

/-- Witness for C6: inserting into a full 10-entry history evicts the oldest
entry first. -/
theorem C6_witness :
    ([0, 1, 2, 3, 4, 5, 6, 7, 8, 9] : List ℕ).length = 10 ∧
    updatePhaseHistory [0, 1, 2, 3, 4, 5, 6, 7, 8, 9] 99 =
      ([0, 1, 2, 3, 4, 5, 6, 7, 8, 9] : List ℕ).tail ++ [99] :=
  ⟨by decide, C6_phaseHistory.2.1 [0, 1, 2, 3, 4, 5, 6, 7, 8, 9] 99 (by decide)⟩

/-! ## Claim C9: validatePanels keeps every panel -/

/-- Claim C9: `validatePanels` returns exactly one `{panel, title}` entry per
input panel in input order, with the `'[No Title]'` fallback when no title
source is present, so the `null` branch is unreachable and the validated count
feeding `calculateTotalPages` equals the input panel count. -/
theorem C9_validatePanels :
    (∀ p : Panel, panelTitle p ≠ "") ∧
    (∀ panels, validatePanels panels = panels.map (fun p => (p, panelTitle p))) ∧
    (∀ panels, (validatePanels panels).length = panels.length) ∧
    (∀ p : Panel, p.dataTitleAttr = none → p.headerTitleText = none →
      panelTitle p = "[No Title]") ∧
    (∀ panels, calculateTotalPages (validatePanels panels).length =
      calculateTotalPages panels.length) := by
  have hjs : ∀ (a : Option String) (b : String), b ≠ "" → jsOrString a b ≠ "" := by
    intro a b hb
    cases a with
    | none => simpa [jsOrString] using hb
    | some s =>
      simp only [jsOrString]
      split
      · exact hb
      · next hs => exact hs
  have hne : ∀ p : Panel, panelTitle p ≠ "" := fun p =>
    hjs _ _ (hjs _ _ (by decide))
  have hmap : ∀ panels, validatePanels panels = panels.map (fun p => (p, panelTitle p)) := by
    intro panels
    have hfun : (fun panel : Panel =>
        let title := panelTitle panel
        if title ≠ "" then some (panel, title) else none) =
        fun panel : Panel => some (panel, panelTitle panel) := by
      funext panel
      simp [hne panel]
    rw [validatePanels, hfun, List.filterMap_map,
      show (id ∘ fun panel : Panel => some (panel, panelTitle panel)) =
        some ∘ (fun p : Panel => (p, panelTitle p)) from rfl,
      List.filterMap_eq_map]
  have hcount : ∀ panels, (validatePanels panels).length = panels.length := by
    intro panels
    rw [hmap]
    simp
  exact ⟨hne, hmap, hcount, fun p h1 h2 => by simp [panelTitle, h1, h2, jsOrString],
    fun panels => by rw [hcount]⟩

/-- Witness for C9: the all-default panel has no title source and titles to
`'[No Title]'`, hence survives validation. -/
theorem C9_witness :
    panelTitle {} = "[No Title]" ∧ validatePanels [{}] = [({}, "[No Title]")] := by
  have h := C9_validatePanels.2.2.2.1 {} rfl rfl
  refine ⟨h, ?_⟩
  rw [C9_validatePanels.2.1 [{}]]
  simp [h]

/-! ## Claim C10: tenant name capitalization -/

/-- Claim C10: `capitalizeFirstLetter` uppercases the first character and
lowercases the rest, returns `""` on `""`, and consequently the tenant name
stored for the cover page keeps no capitalization beyond its first character
(`'ABC'` renders `'Abc'`; every character after the first is lowercased). -/
theorem C10_capitalizeFirstLetter :
    (∀ s : String, capitalizeFirstLetter s =
      String.mk ((s.data.take 1).map Char.toUpper ++ (s.data.drop 1).map Char.toLower)) ∧
    capitalizeFirstLetter "" = "" ∧
    capitalizeFirstLetter "ABC" = "Abc" ∧
    retrieveTenantInfo (some "ABC") = "Abc" ∧
    (∀ t, getElementTextTenant t ≠ "") ∧
    (∀ t, (retrieveTenantInfo t).data.drop 1 =
      ((getElementTextTenant t).data.drop 1).map Char.toLower) := by
  have hget : ∀ t, getElementTextTenant t ≠ "" := by
    intro t
    cases t with
    | none =>
      simp [getElementTextTenant, DEFAULT_TENANT_NAME]
    | some s =>
      simp only [getElementTextTenant]
      split
      · simp [DEFAULT_TENANT_NAME]
      · next hs => exact hs
  refine ⟨fun s => rfl, by decide, by decide, by decide, hget, ?_⟩
  intro t
  have hdata : (getElementTextTenant t).data ≠ [] := by
    intro hd
    exact hget t (String.ext hd)
  have hlen1 : (((getElementTextTenant t).data.take 1).map Char.toUpper).length = 1 := by
    rw [List.length_map, List.length_take]
    cases hu : (getElementTextTenant t).data with
    | nil => exact absurd hu hdata
    | cons a l => simp
  show (capitalizeFirstLetter (getElementTextTenant t)).data.drop 1 = _
  simp only [capitalizeFirstLetter]
  rw [List.drop_left' hlen1]

/-- Witness for C10: the concrete rendering conjunct applied to `'ABC'`. -/
theorem C10_witness : retrieveTenantInfo (some "ABC") = "Abc" :=
  C10_capitalizeFirstLetter.2.2.2.1

/-! ## Claims C4 and C7: layout normalization, snapshots and restore -/

/-- Auxiliary: `Map.set` with a fresh key appends the entry. -/
theorem mapSet_not_mem (m : OriginalMap) (k : ℕ) (v : StylePatch)
    (h : ∀ kv ∈ m, kv.1 ≠ k) : mapSet m k v = m ++ [(k, v)] := by
  simp only [mapSet]
  split
  · next hany =>
    exfalso
    rcases List.any_eq_true.mp hany with ⟨kv, hkv, hk⟩
    exact h kv hkv (by simpa using hk)
  · rfl

/-- Auxiliary: a full six-property snapshot restores the snapshot state
whatever the element's current styles are. -/
theorem applyPatch_rootSnapshotOf (x s : Styles) :
    applyPatch x (rootSnapshotOf s) = s := rfl

/-- Auxiliary: the `{width, height}` snapshot undoes the `{width, height}`
mutation of the embPanel ancestor. -/
theorem applyPatch_embSnapshotOf (s : Styles) :
    applyPatch (applyPatch s fullSizeEmbStyles) (embSnapshotOf s) = s := rfl

/-- Auxiliary: reading the element just written. -/
theorem updateDom_same (d : Dom) (s : Styles) (i : ℕ) : updateDom d i s i = s := by
  simp [updateDom]

/-- Auxiliary: reading another element. -/
theorem updateDom_other (d : Dom) (s : Styles) {i j : ℕ} (h : j ≠ i) :
    updateDom d i s j = d j := by
  simp [updateDom, h]

/-- Auxiliary: invariant preservation across one `storeAndApplyStyles` call
whose touched elements are fresh: the key list grows by the touched ids, every
element not in the map still carries its pre-run styles, and every map entry
restores its element's pre-run styles. -/
theorem storeAndApplyStyles_step (d0 : Dom) (st : Dom × OriginalMap) (p : Panel)
    (rootStyles : StylePatch)
    (h1 : ∀ k, (∀ kv ∈ st.2, kv.1 ≠ k) → st.1 k = d0 k)
    (h2 : ∀ kv ∈ st.2, applyPatch (st.1 kv.1) kv.2 = d0 kv.1)
    (hnodup : ((st.2.map Prod.fst) ++ panelTouchedIds p).Nodup) :
    ((storeAndApplyStyles st p rootStyles fullSizeEmbStyles).2.map Prod.fst) =
        (st.2.map Prod.fst) ++ panelTouchedIds p ∧
    (∀ k, (∀ kv ∈ (storeAndApplyStyles st p rootStyles fullSizeEmbStyles).2, kv.1 ≠ k) →
      (storeAndApplyStyles st p rootStyles fullSizeEmbStyles).1 k = d0 k) ∧
    (∀ kv ∈ (storeAndApplyStyles st p rootStyles fullSizeEmbStyles).2,
      applyPatch ((storeAndApplyStyles st p rootStyles fullSizeEmbStyles).1 kv.1) kv.2 =
        d0 kv.1) := by
  rcases hr : p.root with _ | r <;> rcases he : p.embPanel with _ | e
  case none.none | none.some | some.none =>
    have hid : panelTouchedIds p = [] := by simp [panelTouchedIds, hr, he]
    have hst : storeAndApplyStyles st p rootStyles fullSizeEmbStyles = st := by
      simp [storeAndApplyStyles, hr, he]
    rw [hst, hid]
    exact ⟨by simp, h1, h2⟩
  case some.some =>
  have hid : panelTouchedIds p = [r, e] := by simp [panelTouchedIds, hr, he]
  rw [hid] at hnodup ⊢
  rcases List.nodup_append.mp hnodup with ⟨hk1, hk2, hdisj⟩
  have hre : r ≠ e := by simpa using hk2
  have hrfresh : ∀ kv ∈ st.2, kv.1 ≠ r := by
    intro kv hkv hh
    exact hdisj (List.mem_map_of_mem Prod.fst hkv) (by simp [hh])
  have hefresh : ∀ kv ∈ st.2, kv.1 ≠ e := by
    intro kv hkv hh
    exact hdisj (List.mem_map_of_mem Prod.fst hkv) (by simp [hh])
  have hefresh2 : ∀ kv ∈ st.2 ++ [(r, rootSnapshotOf (st.1 r))], kv.1 ≠ e := by
    intro kv hkv
    rcases List.mem_append.mp hkv with hkv | hkv
    · exact hefresh kv hkv
    · simp only [List.mem_singleton] at hkv
      rw [hkv]
      exact hre
  have hpair : storeAndApplyStyles st p rootStyles fullSizeEmbStyles =
      (updateDom (updateDom st.1 r (applyPatch (st.1 r) rootStyles)) e
        (applyPatch ((updateDom st.1 r (applyPatch (st.1 r) rootStyles)) e) fullSizeEmbStyles),
       st.2 ++ [(r, rootSnapshotOf (st.1 r)), (e, embSnapshotOf (st.1 e))]) := by
    simp only [storeAndApplyStyles, hr, he]
    rw [mapSet_not_mem st.2 r _ hrfresh, mapSet_not_mem _ e _ hefresh2]
    simp
  rw [hpair]
  refine ⟨by simp, ?_, ?_⟩
  · intro k hk
    have hkr : k ≠ r := fun hh =>
      hk (r, rootSnapshotOf (st.1 r)) (by simp) hh.symm
    have hke : k ≠ e := fun hh =>
      hk (e, embSnapshotOf (st.1 e)) (by simp) hh.symm
    show updateDom (updateDom st.1 r (applyPatch (st.1 r) rootStyles)) e
      (applyPatch ((updateDom st.1 r (applyPatch (st.1 r) rootStyles)) e) fullSizeEmbStyles) k =
      d0 k
    rw [updateDom_other _ _ hke, updateDom_other _ _ hkr]
    refine h1 k ?_
    intro kv hkv
    exact hk kv (List.mem_append_left _ hkv)
  · intro kv hkv
    rcases List.mem_append.mp hkv with hkv | hkv
    · have hner : kv.1 ≠ r := hrfresh kv hkv
      have hnee : kv.1 ≠ e := hefresh kv hkv
      show applyPatch (updateDom (updateDom st.1 r (applyPatch (st.1 r) rootStyles)) e
        (applyPatch ((updateDom st.1 r (applyPatch (st.1 r) rootStyles)) e) fullSizeEmbStyles)
        kv.1) kv.2 = d0 kv.1
      rw [updateDom_other _ _ hnee, updateDom_other _ _ hner]
      exact h2 kv hkv
    · rcases List.mem_cons.mp hkv with hkv | hkv
      · rw [hkv]
        show applyPatch (updateDom (updateDom st.1 r (applyPatch (st.1 r) rootStyles)) e
          (applyPatch ((updateDom st.1 r (applyPatch (st.1 r) rootStyles)) e) fullSizeEmbStyles)
          r) (rootSnapshotOf (st.1 r)) = d0 r
        rw [applyPatch_rootSnapshotOf]
        exact h1 r hrfresh
      · simp only [List.mem_singleton] at hkv
        rw [hkv]
        show applyPatch (updateDom (updateDom st.1 r (applyPatch (st.1 r) rootStyles)) e
          (applyPatch ((updateDom st.1 r (applyPatch (st.1 r) rootStyles)) e) fullSizeEmbStyles)
          e) (embSnapshotOf (st.1 e)) = d0 e
        rw [updateDom_same, updateDom_other _ _ (Ne.symm hre), applyPatch_embSnapshotOf]
        exact h1 e hefresh

/-- Auxiliary: the `preparePanelDimensions` fold preserves the snapshot
invariant when all touched element ids are distinct. -/
theorem prepare_fold_inv (d0 : Dom) :
    ∀ (apps : List (Panel × StylePatch)) (st : Dom × OriginalMap),
      (∀ k, (∀ kv ∈ st.2, kv.1 ≠ k) → st.1 k = d0 k) →
      (∀ kv ∈ st.2, applyPatch (st.1 kv.1) kv.2 = d0 kv.1) →
      ((st.2.map Prod.fst) ++ apps.flatMap (fun pa => panelTouchedIds pa.1)).Nodup →
      (∀ k, (∀ kv ∈ (apps.foldl
          (fun st pa => storeAndApplyStyles st pa.1 pa.2 fullSizeEmbStyles) st).2, kv.1 ≠ k) →
        (apps.foldl (fun st pa => storeAndApplyStyles st pa.1 pa.2 fullSizeEmbStyles) st).1 k =
          d0 k) ∧
      (∀ kv ∈ (apps.foldl
          (fun st pa => storeAndApplyStyles st pa.1 pa.2 fullSizeEmbStyles) st).2,
        applyPatch ((apps.foldl
          (fun st pa => storeAndApplyStyles st pa.1 pa.2 fullSizeEmbStyles) st).1 kv.1) kv.2 =
          d0 kv.1) ∧
      (((apps.foldl
          (fun st pa => storeAndApplyStyles st pa.1 pa.2 fullSizeEmbStyles) st).2.map
          Prod.fst)).Nodup := by
    intro apps
    induction apps with
    | nil =>
      intro st h1 h2 h3
      refine ⟨h1, h2, ?_⟩
      simpa using h3
    | cons pa rest ih =>
      intro st h1 h2 h3
      rw [List.foldl_cons]
      have h3' : (((st.2.map Prod.fst) ++ panelTouchedIds pa.1) ++
          rest.flatMap (fun pa => panelTouchedIds pa.1)).Nodup := by
        simpa [List.append_assoc] using h3
      have hn1 : ((st.2.map Prod.fst) ++ panelTouchedIds pa.1).Nodup :=
        List.Nodup.sublist (List.sublist_append_left _ _) h3'
      have hstep := storeAndApplyStyles_step d0 st pa.1 pa.2 h1 h2 hn1
      refine ih _ hstep.2.1 hstep.2.2 ?_
      rw [hstep.1]
      exact h3'

/-- Auxiliary: the restore closure rebuilds the original document from the
invariant. -/
theorem restoreStyles_eq :
    ∀ (m : OriginalMap) (d d0 : Dom),
      (∀ k, (∀ kv ∈ m, kv.1 ≠ k) → d k = d0 k) →
      (∀ kv ∈ m, applyPatch (d kv.1) kv.2 = d0 kv.1) →
      (m.map Prod.fst).Nodup →
      restoreStyles m d = d0 := by
  intro m
  induction m with
  | nil =>
    intro d d0 h1 h2 h3
    funext k
    exact h1 k (by simp)
  | cons kv0 m ih =>
    intro d d0 h1 h2 h3
    rcases kv0 with ⟨k0, p0⟩
    rw [List.map_cons] at h3
    have hk0 : ∀ kv ∈ m, kv.1 ≠ k0 := by
      intro kv hkv hh
      have hmem : kv.1 ∈ m.map Prod.fst := List.mem_map_of_mem Prod.fst hkv
      rw [hh] at hmem
      exact (List.nodup_cons.mp h3).1 hmem
    show restoreStyles m (updateDom d k0 (applyPatch (d k0) p0)) = d0
    refine ih _ d0 ?_ ?_ (List.nodup_cons.mp h3).2
    · intro k hk
      by_cases hkk : k = k0
      · rw [hkk, updateDom_same]
        exact h2 (k0, p0) (List.mem_cons_self _ _)
      · rw [updateDom_other _ _ hkk]
        refine h1 k ?_
        intro kv hkv
        rcases List.mem_cons.mp hkv with hkv | hkv
        · rw [hkv]
          exact fun hh => hkk (hh.symm)
        · exact hk kv hkv
    · intro kv hkv
      have hne : kv.1 ≠ k0 := hk0 kv hkv
      rw [updateDom_other _ _ hne]
      exact h2 kv (List.mem_cons_of_mem _ hkv)

/-- Claim C4 counterexample: a validated panel matching two style probes
(`.visChart` + `.tvbSplitVis` lands in both the `tsvbMetrics` and the
`tvbSplitVis` batch) is NOT restored to its pre-mutation state — the second
snapshot overwrites the first with already-mutated values, so after the
restore closure runs, the grid-cell root keeps the first batch's geometry
(`top: 320px`) instead of its original `top: 0px`. -/
theorem C4_counterexample :
    isValidPanel multiProbePanel = true ∧
    (exampleDom 0).top = "0px" ∧
    (restoreStyles (preparePanelDimensions [multiProbePanel] exampleDom).2
      (preparePanelDimensions [multiProbePanel] exampleDom).1 0).top = "320px" ∧
    restoreStyles (preparePanelDimensions [multiProbePanel] exampleDom).2
      (preparePanelDimensions [multiProbePanel] exampleDom).1 0 ≠ exampleDom 0 := by
  refine ⟨rfl, rfl, by decide, by decide⟩

/-- Claim C4 (amended): provided every touched element is snapshot at most
once (each panel matches exactly one style probe and panels share no
ancestors), every layout-normalization mutation is exactly reverted by the
restore closure — the post-restore document equals the pre-mutation document —
and `getVisualizationData` invokes the closure in its `finally`, so the
document is restored even when the capture body fails. -/
theorem C4_restoreExact :
    (∀ panels d, (touchedIds panels).Nodup →
      restoreStyles (preparePanelDimensions panels d).2
        (preparePanelDimensions panels d).1 = d) ∧
    (∀ allPanels captureFails d, (touchedIds (allPanels.filter isValidPanel)).Nodup →
      (getVisualizationData allPanels captureFails d).2.1 = d) := by
  have hmain : ∀ panels d, (touchedIds panels).Nodup →
      restoreStyles (preparePanelDimensions panels d).2
        (preparePanelDimensions panels d).1 = d := by
    intro panels d hnodup
    have h := prepare_fold_inv d (styleApplications panels) (d, [])
      (fun k _ => rfl) (by simp) (by simpa [touchedIds] using hnodup)
    exact restoreStyles_eq _ _ _ h.1 h.2.1 h.2.2
  refine ⟨hmain, ?_⟩
  intro allPanels captureFails d hnodup
  by_cases h0 : (allPanels.filter isValidPanel).length = 0
  · simp [getVisualizationData, h0]
  · simp only [getVisualizationData, if_neg h0]
    exact hmain _ d hnodup

/-- Witness for C4: a single-probe panel's ids are distinct, and even with a
failing capture the document is restored exactly. -/
theorem C4_witness :
    (touchedIds ([singleProbePanel].filter isValidPanel)).Nodup ∧
    (getVisualizationData [singleProbePanel] true exampleDom).2.1 = exampleDom :=
  ⟨by decide, C4_restoreExact.2 [singleProbePanel] true exampleDom (by decide)⟩

/-- Claim C7: when zero panels pass validation, `getVisualizationData` raises
`NoValidPanels` before any layout mutation: the document is untouched and the
snapshot map stays empty (`preparePanelDimensions` is never reached). -/
theorem C7_noValidPanels :
    ∀ allPanels captureFails d,
      (allPanels.filter isValidPanel).length = 0 →
      getVisualizationData allPanels captureFails d =
        (Except.error ReportError.noValidPanels, d, ([] : OriginalMap)) := by
  intro allPanels captureFails d h
  simp [getVisualizationData, h]

/-- Witness for C7: a dashboard whose only panel is excluded yields the
`NoValidPanels` error with the document untouched and no snapshot taken. -/
theorem C7_witness :
    ([excludedPanel].filter isValidPanel).length = 0 ∧
    getVisualizationData [excludedPanel] false exampleDom =
      (Except.error ReportError.noValidPanels, exampleDom, ([] : OriginalMap)) :=
  ⟨by decide, C7_noValidPanels [excludedPanel] false exampleDom (by decide)⟩

end CanvasReports
